import Mathlib

/-!
# MCP Universal Runtime — verification of the stdio↔HTTP bridge

Shallow embedding of the two bridge programs shipped by the repository
(`bridge-compliant.js`, installed as `bridge.js` by the Dockerfile, and the
simpler `bridge.js` variant).  Pure logic of the JavaScript is translated to
executable Lean definitions; asynchronous callbacks (promise resolution,
timers, stream events) are made explicit as step functions on a bridge-state
structure, and the child process round trip is passed in as an explicit
outcome parameter where a handler awaits it.
-/

set_option autoImplicit false

/-- A JavaScript/JSON value as far as the bridge inspects one: the bridge only
ever looks at `id`, `method`, `error`, `result`, `params` fields, tests
truthiness, compares to string/number literals, and reads sub-fields. -/
inductive JVal where
  | vNull
  | vBool (b : Bool)
  | vNum (n : Int)
  | vStr (s : String)
  | vObj (fields : List (String × JVal))
  | absent

/-- JavaScript truthiness of a `JVal` (`undefined`/`null`/`false`/`0`/`""`
are falsy; every object is truthy). -/
def JVal.truthy : JVal → Bool
  | .vNull => false
  | .vBool b => b
  | .vNum n => !(n == 0)
  | .vStr s => !(s == "")
  | .vObj _ => true
  | .absent => false

/-- Strict (`===`-style, type-sensitive) comparison of a `JVal` with a
number, as used by `Map.has`/`Map.get` on numeric keys. -/
def JVal.eqNum : JVal → Nat → Bool
  | .vNum m, k => m == (k : Int)
  | _, _ => false

/-- Strict comparison of a `JVal` with a string literal (`===`). -/
def JVal.eqStr : JVal → String → Bool
  | .vStr t, s => t == s
  | _, _ => false

/-- Field access `v.f` on a JavaScript value: `undefined` unless `v` is an
object carrying the field.  Only meaningful when the access does not throw
(see `jsGetFieldThrows`). -/
def JVal.getField : JVal → String → JVal
  | .vObj fs, k => ((fs.find? (fun p => decide (p.1 = k))).map Prod.snd).getD .absent
  | _, _ => .absent

/-- In JavaScript, reading a property off `null` or `undefined` throws a
TypeError; a read off any other value succeeds (possibly yielding
`undefined`). -/
def jsGetFieldThrows : JVal → Bool
  | .vNull => true
  | .absent => true
  | _ => false

/-- The message of the TypeError raised by reading `field` off `null` or
`undefined` (wording abstracted: the exact text comes from the JS runtime,
not from this source). -/
def typeErrorMessage (v : JVal) (field : String) : String :=
  match v with
  | .vNull => "Cannot read properties of null (reading " ++ field ++ ")"
  | _ => "Cannot read properties of undefined (reading " ++ field ++ ")"

section AssocMap

variable {κ ν : Type} [DecidableEq κ]

/-- `Map.prototype.has` over an insertion-ordered association list. -/
def mapHas (l : List (κ × ν)) (k : κ) : Bool :=
  l.any (fun p => decide (p.1 = k))

/-- `Map.prototype.get` (first — and, by `Map` key uniqueness, only — hit). -/
def mapGet (l : List (κ × ν)) (k : κ) : Option ν :=
  (l.find? (fun p => decide (p.1 = k))).map Prod.snd

/-- `Map.prototype.set`: replace in place when the key exists, append
otherwise (JavaScript `Map`s preserve insertion order). -/
def mapSet (l : List (κ × ν)) (k : κ) (v : ν) : List (κ × ν) :=
  if mapHas l k then l.map (fun p => if p.1 = k then (k, v) else p)
  else l ++ [(k, v)]

/-- `Map.prototype.delete`. -/
def mapDelete (l : List (κ × ν)) (k : κ) : List (κ × ν) :=
  l.filter (fun p => !(decide (p.1 = k)))

end AssocMap

/-! ## Newline framing of the child's stdout

The stdout handler of both variants is

    buffer += data.toString();
    const lines = buffer.split('\n');
    buffer = lines.pop();          // keep incomplete line
    for (const line of lines)
      if (line.trim()) { try { JSON.parse(line); ... } catch { log } }

We model the byte stream as a list of characters.  `splitSep sep l` returns
the separator-terminated pieces of `l` together with the trailing piece after
the last separator — exactly `l.split(sep)` with the last element popped. -/

/-- Prepending one character to an already split tail: a separator starts a
fresh empty piece, any other character extends the first piece (or the
trailing fragment when no complete piece exists yet). -/
def splitSepStep (sep c : Char) (r : List (List Char) × List Char) :
    List (List Char) × List Char :=
  if c == sep then ([] :: r.1, r.2)
  else
    match r with
    | ([], buf) => ([], c :: buf)
    | (l :: ls, buf) => ((c :: l) :: ls, buf)

/-- `l.split(sep)` with the final (unterminated) piece separated out:
`splitSep sep l = (complete pieces, trailing fragment)`. -/
def splitSep (sep : Char) : List Char → List (List Char) × List Char
  | [] => ([], [])
  | c :: cs => splitSepStep sep c (splitSep sep cs)

/-- All pieces of a JavaScript `split` (the trailing fragment included),
used for comma/semicolon splitting of header values. -/
def splitParts (sep : Char) (l : List Char) : List (List Char) :=
  (splitSep sep l).1 ++ [(splitSep sep l).2]

/-- Newline framing used on the child's stdout. -/
def splitNl : List Char → List (List Char) × List Char :=
  splitSep '\n'

/-- One `data` event: append the chunk to the buffer, emit the complete
lines, keep the trailing fragment.  The state is
(lines dispatched so far, current buffer). -/
def onData (st : List (List Char) × List Char) (chunk : List Char) :
    List (List Char) × List Char :=
  ((st.1 ++ (splitNl (st.2 ++ chunk)).1, (splitNl (st.2 ++ chunk)).2))

/-- Feeding a whole sequence of chunks through the stdout handler, starting
from the initial empty buffer. -/
def feedAll (chunks : List (List Char)) : List (List Char) × List Char :=
  chunks.foldl onData ([], [])

/-- The characters JavaScript `String.prototype.trim` strips (ASCII core). -/
def isJsSpace (c : Char) : Bool :=
  c == ' ' || c == '\t' || c == '\n' || c == '\r' || c == '\x0b' || c == '\x0c'

/-- `line.trim()` is truthy iff some character of the line is not
whitespace. -/
def trimNonempty (l : List Char) : Bool :=
  l.any (fun c => !(isJsSpace c))

/-- The per-line dispatch loop: skip blank lines, hand each remaining line to
`JSON.parse` (abstracted as `parse`); a line the parser rejects is logged and
dropped, affecting nothing else. -/
def dispatchLines {α : Type} (parse : List Char → Option α)
    (lines : List (List Char)) : List α :=
  lines.filterMap (fun line => if trimNonempty line then parse line else none)

/-- Re-attach the newline each complete line was terminated by. -/
def joinLines (ls : List (List Char)) : List Char :=
  (ls.map (fun l => l ++ ['\n'])).flatten

/-- `t.trim()` of JavaScript on a character list. -/
def jsTrim (l : List Char) : List Char :=
  ((l.dropWhile isJsSpace).reverse.dropWhile isJsSpace).reverse

/-- `t.split(sep)[0]`: the characters before the first separator. -/
def headPart (sep : Char) (l : List Char) : List Char :=
  l.takeWhile (fun c => !(c == sep))

/-- Does `needle` occur at the very start of `hay`? -/
def isStartOf : List Char → List Char → Bool
  | [], _ => true
  | _ :: _, [] => false
  | a :: as, b :: bs => (a == b) && isStartOf as bs

/-- JavaScript `hay.includes(needle)`: substring containment. -/
def hasSubstring (needle : List Char) : List Char → Bool
  | [] => isStartOf needle []
  | c :: cs => isStartOf needle (c :: cs) || hasSubstring needle cs

/-! ## Shared message / reply shapes -/

/-- The `error` object of a JSON-RPC envelope (`{code, message}`). -/
structure RpcErr where
  code : Int
  message : String

/-- A framed message read from the child's stdout, as far as
`handleMCPResponse` inspects it: `id`, optional `error` object, `result`. -/
structure Resp where
  id : JVal
  error : Option RpcErr
  result : JVal

/-- Settling a pending caller: `resolve(result)` or `reject(new Error(msg))`.
The caller is identified by an opaque token standing for its
`{resolve, reject}` closure pair. -/
inductive Outcome where
  | resolved (caller : Nat) (value : JVal)
  | rejected (caller : Nat) (message : String)

/-- An HTTP response written by a handler. -/
inductive Reply where
  | rpc (status : Nat) (id : JVal) (result : JVal)
  | rpcErr (status : Nat) (id : JVal) (code : Int) (message : String)
  | rpcWithSession (status : Nat) (session : String) (id : JVal) (result : JVal)
  | plainErr (status : Nat) (message : String)
  | plainMsg (status : Nat) (message : String)
  | accepted
  | stream (status : Nat)

/-- The HTTP status line of a reply (202 for the empty `Accepted` reply). -/
def Reply.statusOf : Reply → Nat
  | .rpc s _ _ => s
  | .rpcErr s _ _ _ => s
  | .rpcWithSession s _ _ _ => s
  | .plainErr s _ => s
  | .plainMsg s _ => s
  | .accepted => 202
  | .stream s => s

/-- A frame written onto an open server-sent-events response. -/
inductive Frame where
  | capabilitiesFrame (caps : JVal)
  | keepAliveFrame

/-- What a `POST /mcp` handler did toward the child process. -/
inductive ChildAction where
  | roundTrip
  | notifyOnly
  | noSend

/-- Result of a write toward the child in the compliant variant, whose
`sendToMCP` logs and drops the message when no writable child exists
instead of throwing. -/
inductive SendResult where
  | written (line : String)
  | droppedLogged

/-- The body a JSON-RPC message parsed from an HTTP POST, as far as the
handlers inspect it. -/
structure PostMsg where
  id : JVal
  method : JVal
  params : JVal

/-- Timer bookkeeping of one correlator call: the allocated id, what the
write toward the child did, and the timeout scheduled for the entry
(`none` when the code schedules no timer). -/
structure ProxySetup where
  sentId : Nat
  timer : Option (Nat × String)

/-- `validateAcceptHeader` of the compliant bridge:
`acceptHeader.split(',').map(t => t.trim().split(';')[0])`, then every
required type must be listed. -/
def validateAcceptHeader (acceptHeader : Option String) (required : List String) : Bool :=
  match acceptHeader with
  | none => false
  | some s =>
    if s == "" then false
    else
      let acceptTypes := (splitParts ',' s.toList).map (fun t => headPart ';' (jsTrim t))
      required.all (fun ty => acceptTypes.contains ty.toList)

/-- `!acceptHeader || !acceptHeader.includes('text/event-stream')` used by
the compliant `GET /mcp` handler (substring containment). -/
def acceptIncludesTES (acceptHeader : Option String) : Bool :=
  match acceptHeader with
  | none => false
  | some s => !(s == "") && hasSubstring "text/event-stream".toList s.toList

namespace Compliant

/-- The child process handle as far as write paths inspect it. -/
structure Proc where
  stdinWritable : Bool

/-- The mutable state of the compliant `MCPBridge` object (the fields the
verified behaviors touch; `port`/paths are startup configuration). -/
structure Bridge where
  mcpProcess : Option Proc
  requestId : Nat
  pendingRequests : List (Nat × Nat)
  isInitialized : Bool
  mcpCapabilities : Option JVal
  sessions : List (String × JVal)
  sseConnections : List String

/-- The constructor's field initialization. -/
def initBridge : Bridge :=
  { mcpProcess := none
    requestId := 1
    pendingRequests := []
    isInitialized := false
    mcpCapabilities := none
    sessions := []
    sseConnections := [] }

/-- `sendToMCP` of the compliant variant: write the newline-terminated JSON
when a child with a writable stdin exists, otherwise `console.error` and
drop the message. -/
def sendToMCP (b : Bridge) (message : String) : SendResult :=
  match b.mcpProcess with
  | some p => if p.stdinWritable then .written (message ++ "\n") else .droppedLogged
  | none => .droppedLogged

/-- `pendingRequests.has(response.id)` / `.get(response.id)` combined:
look up the pending entry whose numeric key strictly equals the response's
`id` value. -/
def pendingLookup (l : List (Nat × Nat)) (id : JVal) : Option (Nat × Nat) :=
  l.find? (fun p => id.eqNum p.1)

/-- Delete the pending entry keyed `response.id` (numeric key `n`). -/
def pendingDelete (l : List (Nat × Nat)) (n : Nat) : List (Nat × Nat) :=
  mapDelete l n

/-- `handleMCPResponse` of the compliant variant: a truthy `id` matching a
pending entry settles and removes that entry (rejecting with the error's
message, else resolving with the result, learning capabilities on the way);
anything else is ignored. -/
def handleMCPResponse (b : Bridge) (r : Resp) : Bridge × Option Outcome :=
  if r.id.truthy then
    match pendingLookup b.pendingRequests r.id with
    | none => (b, none)
    | some (n, caller) =>
      let b1 := { b with pendingRequests := pendingDelete b.pendingRequests n }
      match r.error with
      | some e => (b1, some (.rejected caller e.message))
      | none =>
        if r.result.truthy && (r.result.getField "capabilities").truthy then
          ({ b1 with mcpCapabilities := some r.result, isInitialized := true },
           some (.resolved caller r.result))
        else (b1, some (.resolved caller r.result))
  else (b, none)

/-- `proxyToMCP` of the compliant variant: allocate `this.requestId++`,
record the pending entry, send, and schedule a 30 000 ms timer rejecting
with `Request timeout`. -/
def proxyToMCP (b : Bridge) (caller : Nat) : Bridge × ProxySetup :=
  ({ b with
      requestId := b.requestId + 1
      pendingRequests := mapSet b.pendingRequests b.requestId caller },
   { sentId := b.requestId, timer := some (30000, "Request timeout") })

/-- `initializeMCP` of the compliant variant: same allocation and send, but
no timer is scheduled for the handshake. -/
def initializeMCP (b : Bridge) (caller : Nat) : Bridge × ProxySetup :=
  ({ b with
      requestId := b.requestId + 1
      pendingRequests := mapSet b.pendingRequests b.requestId caller },
   { sentId := b.requestId, timer := none })

/-- A scheduled timeout callback firing for id `id` with captured rejection
closure `caller`: if the entry is still pending, drop it and reject the
caller with the variant's timeout message; otherwise do nothing. -/
def onTimeout (b : Bridge) (id caller : Nat) (timeoutMessage : String) :
    Bridge × Option Outcome :=
  if mapHas b.pendingRequests id then
    ({ b with pendingRequests := mapDelete b.pendingRequests id },
     some (.rejected caller timeoutMessage))
  else (b, none)

/-- The `exit` handler of the child process (both variants):
`this.mcpProcess = null; this.isInitialized = false;` and nothing else. -/
def onExit (b : Bridge) : Bridge :=
  { b with mcpProcess := none, isInitialized := false }

/-- `sessionId && !this.sessions.has(sessionId)`: a session id was supplied
(truthy) and is unknown. -/
def sessionSuppliedUnknown (b : Bridge) (sessionId : Option String) : Bool :=
  match sessionId with
  | none => false
  | some sid => !(sid == "") && !(mapHas b.sessions sid)

/-- `handleInitializeRequest`: run the handshake round trip (its eventual
settlement is the `proxy` argument); on success, build the session entry —
evaluating `message.params.clientInfo`, which throws a TypeError inside the
`try` when `params` is null or undefined, so the `catch` answers 500 with a
−32603 envelope and no session is stored — otherwise mint a session keyed
by the freshly generated UUID `newSession` (storing the client info) and
reply 200 with the `Mcp-Session-Id` header; a rejected round trip is also
caught and answered 500 with the −32603 envelope. -/
def handleInitializeRequest (b : Bridge) (msg : PostMsg)
    (proxy : Except String JVal) (newSession : String) :
    Bridge × Reply × ChildAction :=
  match proxy with
  | .ok v =>
    if jsGetFieldThrows msg.params then
      (b, .rpcErr 500 msg.id (-32603) (typeErrorMessage msg.params "clientInfo"),
       .roundTrip)
    else
      ({ b with sessions := mapSet b.sessions newSession (msg.params.getField "clientInfo") },
       .rpcWithSession 200 newSession msg.id v, .roundTrip)
  | .error e => (b, .rpcErr 500 msg.id (-32603) e, .roundTrip)

/-- `handleMCPPost` of the compliant variant, from the Accept check to the
written reply.  `parsed` is the result of `JSON.parse` on the body, `proxy`
the eventual settlement of the child round trip when one is performed, and
`newSession` the UUID `generateSessionId` would return. -/
def handleMCPPost (b : Bridge) (accept : Option String) (sessionId : Option String)
    (parsed : Option PostMsg) (proxy : Except String JVal) (newSession : String) :
    Bridge × Reply × ChildAction :=
  if !(validateAcceptHeader accept ["application/json", "text/event-stream"]) then
    (b, .rpcErr 400 .vNull (-32600)
       "Accept header must include application/json and text/event-stream", .noSend)
  else
    match parsed with
    | none => (b, .rpcErr 400 .vNull (-32700) "Parse error", .noSend)
    | some msg =>
      if msg.method.eqStr "initialize" then
        handleInitializeRequest b msg proxy newSession
      else if sessionSuppliedUnknown b sessionId then
        (b, .rpcErr 404 msg.id (-32001) "Session not found", .noSend)
      else if msg.id.truthy then
        match proxy with
        | .ok v => (b, .rpc 200 msg.id v, .roundTrip)
        | .error _ => (b, .rpcErr 400 .vNull (-32700) "Parse error", .roundTrip)
      else if msg.method.truthy then (b, .accepted, .notifyOnly)
      else (b, .accepted, .noSend)

/-- The outcome of `handleMCPGet`: an error reply, or an opened stream. -/
inductive GetResult where
  | reject (r : Reply)
  | opened (connId : String) (initialFrames : List Frame) (keepAliveMs : Nat)

/-- `this.isInitialized && this.mcpCapabilities` guarding the initial
capabilities frame. -/
def capsReady (b : Bridge) : Bool :=
  b.isInitialized && ((b.mcpCapabilities.map JVal.truthy).getD false)

/-- `handleMCPGet` of the compliant variant: 400 without
`text/event-stream` in `Accept`, 404 for a supplied-but-unknown session id,
otherwise open an SSE stream: register the fresh connection id, push one
capabilities frame when ready, and schedule a 30 000 ms keep-alive. -/
def handleMCPGet (b : Bridge) (accept : Option String) (sessionId : Option String)
    (connId : String) : Bridge × GetResult :=
  if !(acceptIncludesTES accept) then
    (b, .reject (.plainErr 400 "Accept header must include text/event-stream"))
  else if sessionSuppliedUnknown b sessionId then
    (b, .reject (.plainErr 404 "Session not found"))
  else
    ({ b with sseConnections := b.sseConnections ++ [connId] },
     .opened connId
       (if capsReady b then
          [Frame.capabilitiesFrame ((b.mcpCapabilities.getD .vNull))]
        else [])
       30000)

/-- `handleMCPDelete`: 400 when no session id was supplied, 200 removing the
session when it exists, 404 otherwise. -/
def handleMCPDelete (b : Bridge) (sessionId : Option String) : Bridge × Reply :=
  match sessionId with
  | none => (b, .plainErr 400 "Session ID required")
  | some sid =>
    if sid == "" then (b, .plainErr 400 "Session ID required")
    else if mapHas b.sessions sid then
      ({ b with sessions := mapDelete b.sessions sid },
       .plainMsg 200 "Session terminated")
    else (b, .plainErr 404 "Session not found")

/-- Path normalization of `handleHTTPRequest`: with at least two segments,
a final segment of `health`/`mcp` strips any reverse-proxy path
(`path.split('/').filter(p => p)`, inspect the last part).  The normalized
path is returned as its character list. -/
def routePath (p : String) : List Char :=
  let parts := (splitParts '/' p.toList).filter (fun s => !s.isEmpty)
  if parts.length ≥ 2 then
    let lastPart := parts.getLastD []
    if lastPart == "health".toList || lastPart == "mcp".toList then '/' :: lastPart
    else p.toList
  else p.toList

/-- The route the compliant `switch` statement selects. -/
inductive Route where
  | health
  | mcp
  | notFound

/-- Route dispatch of the compliant variant: only `/health` and `/mcp` are
served; everything else answers 404. -/
def dispatch (p : String) : Route :=
  if routePath p == "/health".toList then .health
  else if routePath p == "/mcp".toList then .mcp
  else .notFound

/-- Asynchronous events interleaving on the bridge's single-threaded loop. -/
inductive Ev where
  | proxyEv (caller : Nat)
  | respEv (r : Resp)
  | timeoutEv (id caller : Nat)
  | exitEv

/-- One event step of the bridge state, together with the caller settlement
it emits (the exit handler and a fresh proxy call settle nobody). -/
def step (b : Bridge) : Ev → Bridge × Option Outcome
  | .proxyEv c => ((proxyToMCP b c).1, none)
  | .respEv r => handleMCPResponse b r
  | .timeoutEv id c => onTimeout b id c "Request timeout"
  | .exitEv => (onExit b, none)

/-- Running a sequence of events. -/
def run (b : Bridge) (es : List Ev) : Bridge :=
  es.foldl (fun b e => (step b e).1) b

/-- The correlator invariant: pending ids are pairwise distinct, positive,
and below the allocation counter, which never falls below its initial 1. -/
def Inv (b : Bridge) : Prop :=
  (b.pendingRequests.map Prod.fst).Nodup ∧
  (∀ p ∈ b.pendingRequests, 0 < p.1 ∧ p.1 < b.requestId) ∧
  1 ≤ b.requestId

instance (b : Bridge) : Decidable (Inv b) := by
  unfold Inv; infer_instance

end Compliant

namespace Simple

/-- The child process handle as far as write paths inspect it. -/
structure Proc where
  stdinWritable : Bool

/-- The mutable state of the simple `MCPBridge` object (it has no session
or SSE-connection maps). -/
structure Bridge where
  mcpProcess : Option Proc
  requestId : Nat
  pendingRequests : List (Nat × Nat)
  isInitialized : Bool
  mcpCapabilities : Option JVal

/-- The constructor's field initialization. -/
def initBridge : Bridge :=
  { mcpProcess := none
    requestId := 1
    pendingRequests := []
    isInitialized := false
    mcpCapabilities := none }

/-- `sendToMCP` of the simple variant: throw
`MCP process not available` when no child with a writable stdin exists,
otherwise write the newline-terminated JSON. -/
def sendToMCP (b : Bridge) (message : String) : Except String String :=
  match b.mcpProcess with
  | none => .error "MCP process not available"
  | some p =>
    if p.stdinWritable then .ok (message ++ "\n")
    else .error "MCP process not available"

/-- `handleMCPResponse` of the simple variant (identical to the compliant
one except for the `|| 'MCP Error'` fallback on a missing error message,
which `Option RpcErr` with a mandatory message field renders the same). -/
def handleMCPResponse (b : Bridge) (r : Resp) : Bridge × Option Outcome :=
  if r.id.truthy then
    match b.pendingRequests.find? (fun p => r.id.eqNum p.1) with
    | none => (b, none)
    | some (n, caller) =>
      let b1 := { b with pendingRequests := b.pendingRequests.filter (fun p => !(decide (p.1 = n))) }
      match r.error with
      | some e => (b1, some (.rejected caller e.message))
      | none =>
        if r.result.truthy && (r.result.getField "capabilities").truthy then
          ({ b1 with mcpCapabilities := some r.result, isInitialized := true },
           some (.resolved caller r.result))
        else (b1, some (.resolved caller r.result))
  else (b, none)

/-- `this.requestId++` followed by `pendingRequests.set(id, {resolve,
reject})`, common to both promise executors of the simple variant. -/
def allocPending (b : Bridge) (caller : Nat) : Bridge :=
  { b with
      requestId := b.requestId + 1
      pendingRequests := mapSet b.pendingRequests b.requestId caller }

/-- `proxyToMCP` of the simple variant: reject up front when the bridge is
not initialized; otherwise allocate `this.requestId++`, record the pending
entry, and send.  A send failure propagates out of the promise executor with
the pending entry already recorded and no timer scheduled; a successful send
schedules the 30 000 ms `MCP request timeout` timer. -/
def proxyToMCP (b : Bridge) (caller : Nat) (message : String) :
    Bridge × Except String ProxySetup :=
  if !b.isInitialized then (b, .error "MCP server not initialized")
  else
    match sendToMCP (allocPending b caller) message with
    | .error e => (allocPending b caller, .error e)
    | .ok _ =>
      (allocPending b caller,
       .ok { sentId := b.requestId, timer := some (30000, "MCP request timeout") })

/-- `initializeMCP` of the simple variant: same shape but with a 10 000 ms
`MCP initialization timeout` timer on the handshake. -/
def initializeMCP (b : Bridge) (caller : Nat) (message : String) :
    Bridge × Except String ProxySetup :=
  match sendToMCP (allocPending b caller) message with
  | .error e => (allocPending b caller, .error e)
  | .ok _ =>
    (allocPending b caller,
     .ok { sentId := b.requestId, timer := some (10000, "MCP initialization timeout") })

/-- A scheduled timeout callback firing (simple variant). -/
def onTimeout (b : Bridge) (id caller : Nat) (timeoutMessage : String) :
    Bridge × Option Outcome :=
  if mapHas b.pendingRequests id then
    ({ b with pendingRequests := mapDelete b.pendingRequests id },
     some (.rejected caller timeoutMessage))
  else (b, none)

/-- The `exit` handler of the child process, simple variant:
`this.mcpProcess = null; this.isInitialized = false;` and nothing else. -/
def onExit (b : Bridge) : Bridge :=
  { b with mcpProcess := none, isInitialized := false }

/-- How `handleMCP` renders the settled round trip as an HTTP reply:
200 with the result envelope, or — for any rejection, including the
`MCP process not available` throw — 500 with a −32603 envelope carrying the
error message. -/
def renderMCPReply (request : PostMsg) (outcome : Except String JVal) : Reply :=
  match outcome with
  | .ok v => .rpc 200 request.id v
  | .error e => .rpcErr 500 .vNull (-32603) e

/-- `handleSSE` of the simple variant: write the SSE headers (status 200)
without inspecting any request header, push one capabilities frame when the
bridge is initialized, and schedule the 30 000 ms ping interval. -/
def handleSSE (b : Bridge) (_acceptHeader : Option String) :
    Reply × List Frame × Nat :=
  (.stream 200,
   (if b.isInitialized && ((b.mcpCapabilities.map JVal.truthy).getD false) then
      [Frame.capabilitiesFrame (b.mcpCapabilities.getD .vNull)]
    else []),
   30000)

/-- Path normalization of the simple `handleHTTPRequest` (its allow-list
additionally holds `sse` and `capabilities`). -/
def routePath (p : String) : List Char :=
  let parts := (splitParts '/' p.toList).filter (fun s => !s.isEmpty)
  if parts.length ≥ 2 then
    let lastPart := parts.getLastD []
    if lastPart == "health".toList || lastPart == "mcp".toList ||
        lastPart == "sse".toList || lastPart == "capabilities".toList then
      '/' :: lastPart
    else p.toList
  else p.toList

/-- The route the simple `switch` statement selects. -/
inductive Route where
  | health
  | mcp
  | sse
  | capabilities
  | notFound

/-- Route dispatch of the simple variant. -/
def dispatch (p : String) : Route :=
  if routePath p == "/health".toList then .health
  else if routePath p == "/mcp".toList then .mcp
  else if routePath p == "/sse".toList then .sse
  else if routePath p == "/capabilities".toList then .capabilities
  else .notFound

end Simple

/-- How `handleMCPResponse` settles the matched caller: reject with the
error's message when an `error` object is present, else resolve with the
result. -/
def respOutcome (caller : Nat) (r : Resp) : Outcome :=
  match r.error with
  | some e => .rejected caller e.message
  | none => .resolved caller r.result

/-! ## Sample states used by concrete instantiations -/

/-- A representative handshake result (an object with a `capabilities`
field), as stored into `mcpCapabilities`. -/
def sampleCaps : JVal :=
  .vObj [("capabilities", .vObj []), ("serverInfo", .vStr "srv")]

/-- A compliant bridge mid-flight: live child, a pending request, learned
capabilities, one session. -/
def cBridge1 : Compliant.Bridge :=
  { mcpProcess := some { stdinWritable := true }
    requestId := 3
    pendingRequests := [(2, 7)]
    isInitialized := true
    mcpCapabilities := some sampleCaps
    sessions := [("sess-1", .vNull)]
    sseConnections := [] }

/-! ## Lemmas about the framing primitives -/

theorem splitSepStep_sep (sep c : Char) (r : List (List Char) × List Char)
    (h : (c == sep) = true) : splitSepStep sep c r = ([] :: r.1, r.2) := by
  simp [splitSepStep, h]

theorem splitSepStep_nil (sep c : Char) (r2 : List Char) (h : (c == sep) = false) :
    splitSepStep sep c ([], r2) = ([], c :: r2) := by
  simp [splitSepStep, h]

theorem splitSepStep_cons (sep c : Char) (l : List Char) (ls : List (List Char))
    (r2 : List Char) (h : (c == sep) = false) :
    splitSepStep sep c (l :: ls, r2) = ((c :: l) :: ls, r2) := by
  simp [splitSepStep, h]

theorem splitSep_cons (sep c : Char) (cs : List Char) :
    splitSep sep (c :: cs) = splitSepStep sep c (splitSep sep cs) := rfl

theorem splitSep_append (sep : Char) (a b : List Char) :
    splitSep sep (a ++ b) =
      ((splitSep sep a).1 ++ (splitSep sep ((splitSep sep a).2 ++ b)).1,
       (splitSep sep ((splitSep sep a).2 ++ b)).2) := by
  induction a with
  | nil => simp [splitSep]
  | cons c cs ih =>
    rcases hcs : splitSep sep cs with ⟨r1, r2⟩
    rw [List.cons_append, splitSep_cons, ih, hcs]
    by_cases hc : (c == sep) = true
    · rw [splitSep_cons, hcs, splitSepStep_sep sep c _ hc, splitSepStep_sep sep c _ hc]
      simp
    · rw [Bool.not_eq_true] at hc
      cases r1 with
      | nil =>
        rw [splitSep_cons, hcs, splitSepStep_nil sep c r2 hc]
        show splitSepStep sep c (splitSep sep (r2 ++ b)) = _
        rw [show (c :: r2) ++ b = c :: (r2 ++ b) from rfl, splitSep_cons]
        simp
      | cons l ls =>
        rw [splitSep_cons, hcs, splitSepStep_cons sep c l ls r2 hc]
        rw [show (l :: ls ++ (splitSep sep (r2 ++ b)).1 : List (List Char))
              = l :: (ls ++ (splitSep sep (r2 ++ b)).1) from rfl]
        rw [splitSepStep_cons sep c l _ _ hc]
        simp

theorem splitSep_of_no_sep (sep : Char) (l : List Char)
    (h : l.all (fun c => !(c == sep)) = true) : splitSep sep l = ([], l) := by
  induction l with
  | nil => simp [splitSep]
  | cons c cs ih =>
    simp only [List.all_cons, Bool.and_eq_true, Bool.not_eq_true'] at h
    rw [splitSep_cons, ih (by simpa using h.2), splitSepStep_nil sep c cs h.1]

theorem splitSep_buffer_no_sep (sep : Char) (l : List Char) :
    (splitSep sep l).2.all (fun c => !(c == sep)) = true := by
  induction l with
  | nil => simp [splitSep]
  | cons c cs ih =>
    rcases hcs : splitSep sep cs with ⟨r1, r2⟩
    rw [hcs] at ih
    rw [splitSep_cons, hcs]
    by_cases hc : (c == sep) = true
    · rw [splitSepStep_sep sep c _ hc]; exact ih
    · rw [Bool.not_eq_true] at hc
      cases r1 with
      | nil =>
        rw [splitSepStep_nil sep c r2 hc]
        simp only [List.all_cons, Bool.and_eq_true]
        exact ⟨by simp [hc], ih⟩
      | cons l0 ls => rw [splitSepStep_cons sep c l0 ls r2 hc]; exact ih

theorem foldl_onData (chunks : List (List Char)) (acc : List (List Char))
    (buf : List Char) (hbuf : buf.all (fun c => !(c == '\n')) = true) :
    chunks.foldl onData (acc, buf) =
      (acc ++ (splitNl (buf ++ chunks.flatten)).1,
       (splitNl (buf ++ chunks.flatten)).2) := by
  induction chunks generalizing acc buf with
  | nil =>
    simp [splitNl, splitSep_of_no_sep '\n' buf hbuf]
  | cons ch rest ih =>
    simp only [List.foldl_cons, onData, List.flatten_cons]
    rw [ih (acc ++ (splitNl (buf ++ ch)).1) ((splitNl (buf ++ ch)).2)
      (splitSep_buffer_no_sep '\n' (buf ++ ch))]
    have h : splitNl ((buf ++ ch) ++ rest.flatten) =
        ((splitNl (buf ++ ch)).1 ++ (splitNl ((splitNl (buf ++ ch)).2 ++ rest.flatten)).1,
         (splitNl ((splitNl (buf ++ ch)).2 ++ rest.flatten)).2) :=
      splitSep_append '\n' (buf ++ ch) rest.flatten
    rw [List.append_assoc buf ch rest.flatten] at h
    rw [h]
    simp [List.append_assoc]

theorem feedAll_eq_splitNl (chunks : List (List Char)) :
    feedAll chunks = splitNl chunks.flatten := by
  have h := foldl_onData chunks [] [] (by simp)
  simpa [feedAll] using h

theorem joinLines_splitNl (l : List Char) :
    joinLines (splitNl l).1 ++ (splitNl l).2 = l := by
  induction l with
  | nil => simp [splitNl, splitSep, joinLines]
  | cons c cs ih =>
    rcases hcs : splitNl cs with ⟨r1, r2⟩
    rw [hcs] at ih
    rw [show splitNl (c :: cs) = splitSepStep '\n' c (splitNl cs) from rfl, hcs]
    by_cases hc : (c == '\n') = true
    · have hc' : c = '\n' := by simpa using hc
      rw [splitSepStep_sep '\n' c _ hc]
      simp only [joinLines, List.map_cons, List.flatten_cons, List.nil_append] at ih ⊢
      rw [hc', List.cons_append]
      exact congrArg _ ih
    · rw [Bool.not_eq_true] at hc
      cases r1 with
      | nil =>
        rw [splitSepStep_nil '\n' c r2 hc]
        simp only [joinLines, List.map_nil, List.flatten_nil, List.nil_append] at ih ⊢
        rw [ih]
      | cons ln ls =>
        rw [splitSepStep_cons '\n' c ln ls r2 hc]
        simp only [joinLines, List.map_cons, List.flatten_cons, List.cons_append,
          List.append_assoc] at ih ⊢
        rw [ih]

/-! ## Lemmas about the association-map primitives -/

section MapLemmas

variable {κ ν : Type} [DecidableEq κ]

theorem mapHas_eq_true_iff {l : List (κ × ν)} {k : κ} :
    mapHas l k = true ↔ ∃ v, (k, v) ∈ l := by
  simp only [mapHas, List.any_eq_true, decide_eq_true_eq]
  constructor
  · rintro ⟨⟨a, v⟩, hp, he⟩
    have ha : a = k := he
    exact ⟨v, ha ▸ hp⟩
  · rintro ⟨v, hv⟩
    exact ⟨(k, v), hv, rfl⟩

theorem mapHas_eq_false_iff {l : List (κ × ν)} {k : κ} :
    mapHas l k = false ↔ ∀ p ∈ l, p.1 ≠ k := by
  simp [mapHas, List.any_eq_false]

theorem mapHas_mapDelete_self (l : List (κ × ν)) (k : κ) :
    mapHas (mapDelete l k) k = false := by
  rw [mapHas_eq_false_iff]
  intro p hp
  rw [mapDelete, List.mem_filter] at hp
  simpa using hp.2

theorem mapHas_mapDelete_ne (l : List (κ × ν)) (j k : κ) (h : j ≠ k) :
    mapHas (mapDelete l k) j = mapHas l j := by
  rw [Bool.eq_iff_iff, mapHas_eq_true_iff, mapHas_eq_true_iff]
  constructor
  · rintro ⟨v, hv⟩
    rw [mapDelete, List.mem_filter] at hv
    exact ⟨v, hv.1⟩
  · rintro ⟨v, hv⟩
    refine ⟨v, ?_⟩
    rw [mapDelete, List.mem_filter]
    exact ⟨hv, by simpa using h⟩

theorem mapSet_fresh (l : List (κ × ν)) (k : κ) (v : ν)
    (h : mapHas l k = false) : mapSet l k v = l ++ [(k, v)] := by
  simp [mapSet, h]

end MapLemmas

theorem eqNum_coe (n k : Nat) :
    JVal.eqNum (JVal.vNum (n : Int)) k = decide (n = k) := by
  by_cases h : n = k <;> simp [JVal.eqNum, h]

theorem find_key_of_nodup {ν : Type} {l : List (Nat × ν)}
    (hnd : (l.map Prod.fst).Nodup) {n : Nat} {c : ν} (hm : (n, c) ∈ l) :
    l.find? (fun p => JVal.eqNum (JVal.vNum (n : Int)) p.1) = some (n, c) := by
  induction l with
  | nil => cases hm
  | cons hd tl ih =>
    rw [List.map_cons, List.nodup_cons] at hnd
    rcases List.mem_cons.mp hm with he | htl
    · rw [← he]
      rw [List.find?_cons_of_pos]
      rw [eqNum_coe]
      simp
    · have hne : hd.1 ≠ n := by
        intro hcontra
        exact hnd.1 (hcontra ▸ List.mem_map_of_mem Prod.fst htl)
      rw [List.find?_cons_of_neg]
      · exact ih hnd.2 htl
      · rw [eqNum_coe]
        simp [Ne.symm hne]

theorem find_key_none {ν : Type} {l : List (Nat × ν)} {n : Nat}
    (h : mapHas l n = false) :
    l.find? (fun p => JVal.eqNum (JVal.vNum (n : Int)) p.1) = none := by
  rw [List.find?_eq_none]
  intro p hp
  rw [eqNum_coe]
  rw [mapHas_eq_false_iff] at h
  simpa using Ne.symm (h p hp)

/-! ## Behavior of the compliant response handler -/

theorem handleMCPResponse_not_truthy (b : Compliant.Bridge) (r : Resp)
    (h : r.id.truthy = false) : Compliant.handleMCPResponse b r = (b, none) := by
  simp [Compliant.handleMCPResponse, h]

theorem handleMCPResponse_no_match (b : Compliant.Bridge) (r : Resp)
    (h : Compliant.pendingLookup b.pendingRequests r.id = none) :
    Compliant.handleMCPResponse b r = (b, none) := by
  cases htr : r.id.truthy <;> simp [Compliant.handleMCPResponse, htr, h]

theorem handleMCPResponse_match (b : Compliant.Bridge) (r : Resp) (n caller : Nat)
    (htr : r.id.truthy = true)
    (hl : Compliant.pendingLookup b.pendingRequests r.id = some (n, caller)) :
    (Compliant.handleMCPResponse b r).2 = some (respOutcome caller r) ∧
    (Compliant.handleMCPResponse b r).1.pendingRequests =
      Compliant.pendingDelete b.pendingRequests n ∧
    (Compliant.handleMCPResponse b r).1.requestId = b.requestId ∧
    (Compliant.handleMCPResponse b r).1.sessions = b.sessions ∧
    (Compliant.handleMCPResponse b r).1.mcpProcess = b.mcpProcess := by
  cases herr : r.error with
  | some e => simp [Compliant.handleMCPResponse, htr, hl, respOutcome, herr]
  | none =>
    cases hcap : (r.result.truthy && (r.result.getField "capabilities").truthy) <;>
      simp [Compliant.handleMCPResponse, htr, hl, respOutcome, herr, hcap]

/-- C1: a child response with id `N` settles exactly the caller pending
under `N` — rejecting with the error's message or resolving with the
result — and removes that entry; a response matching no pending entry is
discarded without delivering anything or changing any state, and every
delivered settlement traces back to the pending entry whose key the
response's id equals, even with several distinct ids in flight. -/
theorem correlator_delivers_by_id (b : Compliant.Bridge) (r : Resp)
    (hnd : (b.pendingRequests.map Prod.fst).Nodup) :
    (∀ n caller, (n, caller) ∈ b.pendingRequests → 0 < n →
       r.id = JVal.vNum (n : Int) →
       (Compliant.handleMCPResponse b r).2 = some (respOutcome caller r) ∧
       mapHas (Compliant.handleMCPResponse b r).1.pendingRequests n = false) ∧
    ((∀ p ∈ b.pendingRequests, r.id.eqNum p.1 = false) →
       Compliant.handleMCPResponse b r = (b, none)) ∧
    (∀ caller v,
       (Compliant.handleMCPResponse b r).2 = some (Outcome.resolved caller v) →
       ∃ n, (n, caller) ∈ b.pendingRequests ∧ r.id.eqNum n = true ∧
         v = r.result ∧ r.error = none) ∧
    (∀ caller m,
       (Compliant.handleMCPResponse b r).2 = some (Outcome.rejected caller m) →
       ∃ n e, (n, caller) ∈ b.pendingRequests ∧ r.id.eqNum n = true ∧
         r.error = some e ∧ m = e.message) := by
  refine ⟨?_, ?_, ?_, ?_⟩
  · intro n caller hmem hpos hid
    have htr : r.id.truthy = true := by
      rw [hid]; simp [JVal.truthy]; omega
    have hl : Compliant.pendingLookup b.pendingRequests r.id = some (n, caller) := by
      rw [Compliant.pendingLookup, hid]
      exact find_key_of_nodup hnd hmem
    obtain ⟨h1, h2, -, -, -⟩ := handleMCPResponse_match b r n caller htr hl
    refine ⟨h1, ?_⟩
    rw [h2, Compliant.pendingDelete]
    exact mapHas_mapDelete_self _ _
  · intro h
    apply handleMCPResponse_no_match
    rw [Compliant.pendingLookup, List.find?_eq_none]
    intro p hp
    simp [h p hp]
  · intro caller v hout
    cases htr : r.id.truthy with
    | false => rw [handleMCPResponse_not_truthy b r htr] at hout; cases hout
    | true =>
      cases hl : Compliant.pendingLookup b.pendingRequests r.id with
      | none => rw [handleMCPResponse_no_match b r hl] at hout; cases hout
      | some p =>
        obtain ⟨n, c⟩ := p
        have hmem : (n, c) ∈ b.pendingRequests := List.mem_of_find?_eq_some hl
        have hpred : r.id.eqNum n = true := by
          have := List.find?_some hl
          simpa using this
        obtain ⟨h1, -, -, -, -⟩ := handleMCPResponse_match b r n c htr hl
        rw [h1] at hout
        cases herr : r.error with
        | some e => rw [respOutcome, herr] at hout; simp at hout
        | none =>
          rw [respOutcome, herr] at hout
          simp only [Option.some.injEq, Outcome.resolved.injEq] at hout
          obtain ⟨hc, hv⟩ := hout
          subst hc
          exact ⟨n, hmem, hpred, hv.symm, rfl⟩
  · intro caller m hout
    cases htr : r.id.truthy with
    | false => rw [handleMCPResponse_not_truthy b r htr] at hout; cases hout
    | true =>
      cases hl : Compliant.pendingLookup b.pendingRequests r.id with
      | none => rw [handleMCPResponse_no_match b r hl] at hout; cases hout
      | some p =>
        obtain ⟨n, c⟩ := p
        have hmem : (n, c) ∈ b.pendingRequests := List.mem_of_find?_eq_some hl
        have hpred : r.id.eqNum n = true := by
          have := List.find?_some hl
          simpa using this
        obtain ⟨h1, -, -, -, -⟩ := handleMCPResponse_match b r n c htr hl
        rw [h1] at hout
        cases herr : r.error with
        | none => rw [respOutcome, herr] at hout; simp at hout
        | some e =>
          rw [respOutcome, herr] at hout
          simp only [Option.some.injEq, Outcome.rejected.injEq] at hout
          obtain ⟨hc, hm⟩ := hout
          subst hc
          exact ⟨n, e, hmem, hpred, rfl, hm.symm⟩

/-- C1 witness: with entries 1 ↦ caller 10 and 2 ↦ caller 20 pending, the
response with id 1 resolves caller 10 with its result and removes entry 1. -/
theorem correlator_delivers_by_id_witness :
    (Compliant.handleMCPResponse
        { Compliant.initBridge with pendingRequests := [(1, 10), (2, 20)] }
        { id := JVal.vNum ((1 : Nat) : Int), error := none, result := JVal.vStr "ok" }).2 =
      some (Outcome.resolved 10 (JVal.vStr "ok")) ∧
    mapHas (Compliant.handleMCPResponse
        { Compliant.initBridge with pendingRequests := [(1, 10), (2, 20)] }
        { id := JVal.vNum ((1 : Nat) : Int), error := none, result := JVal.vStr "ok" }).1.pendingRequests
      1 = false := by
  have h := correlator_delivers_by_id
      { Compliant.initBridge with pendingRequests := [(1, 10), (2, 20)] }
      { id := JVal.vNum ((1 : Nat) : Int), error := none, result := JVal.vStr "ok" }
      (by decide)
  have h1 := h.1 1 10 (by decide) (by decide) rfl
  exact ⟨h1.1, h1.2⟩

/-- C2: the compliant correlator schedules a 30 000 ms timer on every
proxied call; the simple correlator schedules 30 000 ms on ordinary calls
and 10 000 ms on the handshake; a firing timer whose entry is still pending
removes the entry and rejects the caller with the timeout error, after which
a late response with the same id is discarded with no effect; a timer whose
entry was already settled does nothing. -/
theorem pending_timeout_rejects_and_removes
    (b : Compliant.Bridge) (id caller : Nat) (msg : String) :
    (∀ c : Nat, (Compliant.proxyToMCP b c).2.timer = some (30000, "Request timeout")) ∧
    (∀ (bs : Simple.Bridge) (c : Nat) (m : String) (setup : ProxySetup),
       (Simple.proxyToMCP bs c m).2 = Except.ok setup →
       setup.timer = some (30000, "MCP request timeout")) ∧
    (∀ (bs : Simple.Bridge) (c : Nat) (m : String) (setup : ProxySetup),
       (Simple.initializeMCP bs c m).2 = Except.ok setup →
       setup.timer = some (10000, "MCP initialization timeout")) ∧
    (mapHas b.pendingRequests id = true →
       Compliant.onTimeout b id caller msg =
         ({ b with pendingRequests := mapDelete b.pendingRequests id },
          some (Outcome.rejected caller msg)) ∧
       mapHas (Compliant.onTimeout b id caller msg).1.pendingRequests id = false ∧
       (∀ r : Resp, r.id = JVal.vNum (id : Int) →
          Compliant.handleMCPResponse (Compliant.onTimeout b id caller msg).1 r =
            ((Compliant.onTimeout b id caller msg).1, none))) ∧
    (mapHas b.pendingRequests id = false →
       Compliant.onTimeout b id caller msg = (b, none)) := by
  refine ⟨fun c => rfl, ?_, ?_, ?_, ?_⟩
  · intro bs c m setup h
    rw [Simple.proxyToMCP] at h
    split at h
    · exact absurd h (by simp)
    · split at h
      · exact absurd h (by simp)
      · simp only [Except.ok.injEq] at h
        rw [← h]
  · intro bs c m setup h
    rw [Simple.initializeMCP] at h
    split at h
    · exact absurd h (by simp)
    · simp only [Except.ok.injEq] at h
      rw [← h]
  · intro h
    have heq : Compliant.onTimeout b id caller msg =
        ({ b with pendingRequests := mapDelete b.pendingRequests id },
         some (Outcome.rejected caller msg)) := by
      simp [Compliant.onTimeout, h]
    refine ⟨heq, ?_, ?_⟩
    · rw [heq]
      exact mapHas_mapDelete_self _ _
    · intro r hr
      apply handleMCPResponse_no_match
      rw [Compliant.pendingLookup, hr]
      apply find_key_none
      rw [heq]
      exact mapHas_mapDelete_self _ _
  · intro h
    simp [Compliant.onTimeout, h]

/-- C2 witness: with entry 2 ↦ caller 7 pending, the firing timer removes
the entry, rejects caller 7 with `Request timeout`, and a late response with
id 2 is then discarded. -/
theorem pending_timeout_rejects_and_removes_witness :
    Compliant.onTimeout cBridge1 2 7 "Request timeout" =
      ({ cBridge1 with pendingRequests := mapDelete cBridge1.pendingRequests 2 },
       some (Outcome.rejected 7 "Request timeout")) ∧
    mapHas (Compliant.onTimeout cBridge1 2 7 "Request timeout").1.pendingRequests 2 = false ∧
    Compliant.handleMCPResponse (Compliant.onTimeout cBridge1 2 7 "Request timeout").1
        { id := JVal.vNum ((2 : Nat) : Int), error := none, result := JVal.vNull } =
      ((Compliant.onTimeout cBridge1 2 7 "Request timeout").1, none) := by
  have h :=
    (pending_timeout_rejects_and_removes cBridge1 2 7 "Request timeout").2.2.2.1 (by decide)
  exact ⟨h.1, h.2.1, h.2.2 _ rfl⟩

/-! ## The correlator invariant -/

theorem Inv_of_sublist (b b2 : Compliant.Bridge)
    (hsub : b2.pendingRequests.Sublist b.pendingRequests)
    (hrid : b2.requestId = b.requestId) (h : Compliant.Inv b) : Compliant.Inv b2 := by
  obtain ⟨hnd, hbnd, hone⟩ := h
  refine ⟨hnd.sublist (hsub.map Prod.fst), ?_, ?_⟩
  · intro p hp
    rw [hrid]
    exact hbnd p (hsub.subset hp)
  · rw [hrid]; exact hone

theorem handleMCPResponse_shrinks (b : Compliant.Bridge) (r : Resp) :
    (Compliant.handleMCPResponse b r).1.pendingRequests.Sublist b.pendingRequests ∧
    (Compliant.handleMCPResponse b r).1.requestId = b.requestId := by
  cases htr : r.id.truthy with
  | false => rw [handleMCPResponse_not_truthy b r htr]; exact ⟨List.Sublist.refl _, rfl⟩
  | true =>
    cases hl : Compliant.pendingLookup b.pendingRequests r.id with
    | none => rw [handleMCPResponse_no_match b r hl]; exact ⟨List.Sublist.refl _, rfl⟩
    | some p =>
      obtain ⟨n, c⟩ := p
      obtain ⟨-, h2, h3, -, -⟩ := handleMCPResponse_match b r n c htr hl
      rw [h2, h3]
      refine ⟨?_, rfl⟩
      rw [Compliant.pendingDelete, mapDelete]
      exact List.filter_sublist _

theorem onTimeout_shrinks (b : Compliant.Bridge) (id c : Nat) (m : String) :
    (Compliant.onTimeout b id c m).1.pendingRequests.Sublist b.pendingRequests ∧
    (Compliant.onTimeout b id c m).1.requestId = b.requestId := by
  cases h : mapHas b.pendingRequests id with
  | false =>
    rw [show Compliant.onTimeout b id c m = (b, none) from by
      simp [Compliant.onTimeout, h]]
    exact ⟨List.Sublist.refl _, rfl⟩
  | true =>
    rw [show Compliant.onTimeout b id c m =
        ({ b with pendingRequests := mapDelete b.pendingRequests id },
         some (Outcome.rejected c m)) from by simp [Compliant.onTimeout, h]]
    refine ⟨?_, rfl⟩
    rw [mapDelete]
    exact List.filter_sublist _

theorem Inv_proxy (b : Compliant.Bridge) (c : Nat) (h : Compliant.Inv b) :
    Compliant.Inv (Compliant.proxyToMCP b c).1 := by
  obtain ⟨hnd, hbnd, hone⟩ := h
  have hfresh : mapHas b.pendingRequests b.requestId = false := by
    rw [mapHas_eq_false_iff]
    intro p hp
    exact Nat.ne_of_lt (hbnd p hp).2
  have hset : mapSet b.pendingRequests b.requestId c =
      b.pendingRequests ++ [(b.requestId, c)] := mapSet_fresh _ _ _ hfresh
  refine ⟨?_, ?_, ?_⟩
  · show ((mapSet b.pendingRequests b.requestId c).map Prod.fst).Nodup
    rw [hset, List.map_append]
    rw [List.nodup_append]
    refine ⟨hnd, List.nodup_singleton _, ?_⟩
    intro a ha hb
    simp only [List.map_cons, List.map_nil, List.mem_singleton] at hb
    obtain ⟨p, hp, hpa⟩ := List.mem_map.mp ha
    rw [mapHas_eq_false_iff] at hfresh
    exact hfresh p hp (hpa.trans hb)
  · intro p hp
    show p.1 > 0 ∧ p.1 < b.requestId + 1
    have hp2 : p ∈ mapSet b.pendingRequests b.requestId c := hp
    rw [hset] at hp2
    rcases List.mem_append.mp hp2 with hold | hnew
    · exact ⟨(hbnd p hold).1, Nat.lt_succ_of_lt (hbnd p hold).2⟩
    · simp only [List.mem_singleton] at hnew
      rw [hnew]
      exact ⟨hone, Nat.lt_succ_self _⟩
  · exact Nat.le_succ_of_le hone

theorem Inv_step (b : Compliant.Bridge) (e : Compliant.Ev) (h : Compliant.Inv b) :
    Compliant.Inv (Compliant.step b e).1 := by
  cases e with
  | proxyEv c => exact Inv_proxy b c h
  | respEv r =>
    obtain ⟨hs, hr⟩ := handleMCPResponse_shrinks b r
    exact Inv_of_sublist b _ hs hr h
  | timeoutEv id c =>
    obtain ⟨hs, hr⟩ := onTimeout_shrinks b id c "Request timeout"
    exact Inv_of_sublist b _ hs hr h
  | exitEv => exact Inv_of_sublist b _ (List.Sublist.refl _) rfl h

theorem Inv_run (b : Compliant.Bridge) (es : List Compliant.Ev)
    (h : Compliant.Inv b) : Compliant.Inv (Compliant.run b es) := by
  induction es generalizing b with
  | nil => exact h
  | cons e es ih => exact ih _ (Inv_step b e h)

theorem requestId_mono_step (b : Compliant.Bridge) (e : Compliant.Ev) :
    b.requestId ≤ (Compliant.step b e).1.requestId := by
  cases e with
  | proxyEv c => exact Nat.le_succ _
  | respEv r =>
    show b.requestId ≤ (Compliant.handleMCPResponse b r).1.requestId
    exact Nat.le_of_eq (handleMCPResponse_shrinks b r).2.symm
  | timeoutEv id c =>
    show b.requestId ≤ (Compliant.onTimeout b id c "Request timeout").1.requestId
    exact Nat.le_of_eq (onTimeout_shrinks b id c "Request timeout").2.symm
  | exitEv => exact Nat.le_refl _

theorem requestId_mono_run (b : Compliant.Bridge) (es : List Compliant.Ev) :
    b.requestId ≤ (Compliant.run b es).requestId := by
  induction es generalizing b with
  | nil => exact Nat.le_refl _
  | cons e es ih => exact Nat.le_trans (requestId_mono_step b e) (ih _)

/-- C7: the counter starts at 1 in the constructor; each proxied call takes
the current counter as its id and bumps the counter; the taken id is never
already pending; the correlator invariant (pairwise-distinct pending ids)
is preserved by every event, so pending ids stay pairwise distinct; and
every state reachable after an allocation has a strictly larger counter, so
an allocated id is never handed out again. -/
theorem request_id_allocation (b : Compliant.Bridge) (es : List Compliant.Ev)
    (c : Nat) (h : Compliant.Inv b) :
    Compliant.initBridge.requestId = 1 ∧
    (Compliant.proxyToMCP b c).2.sentId = b.requestId ∧
    (Compliant.proxyToMCP b c).1.requestId = b.requestId + 1 ∧
    mapHas b.pendingRequests (Compliant.proxyToMCP b c).2.sentId = false ∧
    Compliant.Inv (Compliant.run b es) ∧
    ((Compliant.run b es).pendingRequests.map Prod.fst).Nodup ∧
    (Compliant.proxyToMCP b c).2.sentId <
      (Compliant.run (Compliant.proxyToMCP b c).1 es).requestId := by
  obtain ⟨hnd, hbnd, hone⟩ := h
  refine ⟨rfl, rfl, rfl, ?_, ?_, ?_, ?_⟩
  · rw [mapHas_eq_false_iff]
    intro p hp
    exact Nat.ne_of_lt (hbnd p hp).2
  · exact Inv_run b es ⟨hnd, hbnd, hone⟩
  · exact (Inv_run b es ⟨hnd, hbnd, hone⟩).1
  · calc (Compliant.proxyToMCP b c).2.sentId < b.requestId + 1 := Nat.lt_succ_self _
      _ = (Compliant.proxyToMCP b c).1.requestId := rfl
      _ ≤ _ := requestId_mono_run _ es

/-- C7 witness: from the freshly constructed bridge, the first proxied call
takes id 1 and the invariant carries through a subsequent event. -/
theorem request_id_allocation_witness :
    (Compliant.proxyToMCP Compliant.initBridge 9).2.sentId = 1 ∧
    Compliant.Inv (Compliant.run Compliant.initBridge [Compliant.Ev.proxyEv 4]) ∧
    mapHas Compliant.initBridge.pendingRequests
      (Compliant.proxyToMCP Compliant.initBridge 9).2.sentId = false := by
  have h := request_id_allocation Compliant.initBridge [Compliant.Ev.proxyEv 4] 9 (by decide)
  exact ⟨h.2.1, h.2.2.2.2.1, h.2.2.2.1⟩

/-- C3: folding the stdout chunks through the data handler dispatches
exactly the newline-terminated lines of the concatenated stream, in order
(`feedAll = splitNl ∘ flatten`); re-attaching each line's newline and the
final buffer reconstructs the stream, so nothing is lost or reordered; the
retained buffer never contains a newline (it is dispatched only once its
terminator arrives); and a line the JSON parser rejects contributes nothing
to the dispatched messages while leaving every other line's handling
unchanged. -/
theorem stdout_line_framing {α : Type} (parse : List Char → Option α)
    (chunks pre post : List (List Char)) (bad : List Char)
    (hbad : parse bad = none) :
    feedAll chunks = splitNl chunks.flatten ∧
    joinLines (splitNl chunks.flatten).1 ++ (splitNl chunks.flatten).2 =
      chunks.flatten ∧
    (splitNl chunks.flatten).2.all (fun c => !(c == '\n')) = true ∧
    dispatchLines parse (pre ++ bad :: post) =
      dispatchLines parse pre ++ dispatchLines parse post := by
  refine ⟨feedAll_eq_splitNl chunks, joinLines_splitNl chunks.flatten,
    splitSep_buffer_no_sep '\n' chunks.flatten, ?_⟩
  simp only [dispatchLines, List.filterMap_append, List.filterMap_cons]
  cases trimNonempty bad <;> simp [hbad]

/-- C3 witness: chunks `ab`, `c\nd` dispatch exactly the line `abc` and
retain `d`; an unparseable line drops out without affecting its
neighbours. -/
theorem stdout_line_framing_witness :
    feedAll [['a', 'b'], ['c', '\n', 'd']] =
      splitNl [['a', 'b'], ['c', '\n', 'd']].flatten ∧
    (splitNl [['a', 'b'], ['c', '\n', 'd']].flatten).1 = [['a', 'b', 'c']] ∧
    (splitNl [['a', 'b'], ['c', '\n', 'd']].flatten).2 = ['d'] ∧
    dispatchLines (fun l => if l = ['a'] then some 1 else none)
        ([['a']] ++ ['x'] :: [['a']]) =
      dispatchLines (fun l => if l = ['a'] then some 1 else none) [['a']] ++
        dispatchLines (fun l => if l = ['a'] then some 1 else none) [['a']] := by
  have h := stdout_line_framing (fun l => if l = ['a'] then some 1 else none)
      [['a', 'b'], ['c', '\n', 'd']] [['a']] [['a']] ['x'] (by decide)
  exact ⟨h.1, by decide, by decide, h.2.2.2⟩

/-- C4 (amended): the child-exit handler of either variant nulls the
process handle and flips readiness off, and changes nothing else — the
stored capabilities are left in place (not cleared), no pending entry is
touched or settled, sessions and the id counter survive, and no new process
is spawned. -/
theorem child_exit_resets_readiness_only (b : Compliant.Bridge)
    (bs : Simple.Bridge) :
    (Compliant.onExit b).mcpProcess = none ∧
    (Compliant.onExit b).isInitialized = false ∧
    (Compliant.onExit b).mcpCapabilities = b.mcpCapabilities ∧
    (Compliant.onExit b).pendingRequests = b.pendingRequests ∧
    (Compliant.onExit b).requestId = b.requestId ∧
    (Compliant.onExit b).sessions = b.sessions ∧
    (Compliant.onExit b).sseConnections = b.sseConnections ∧
    Compliant.step b Compliant.Ev.exitEv = (Compliant.onExit b, none) ∧
    (Simple.onExit bs).mcpProcess = none ∧
    (Simple.onExit bs).isInitialized = false ∧
    (Simple.onExit bs).mcpCapabilities = bs.mcpCapabilities ∧
    (Simple.onExit bs).pendingRequests = bs.pendingRequests ∧
    (Simple.onExit bs).requestId = bs.requestId :=
  ⟨rfl, rfl, rfl, rfl, rfl, rfl, rfl, rfl, rfl, rfl, rfl, rfl, rfl⟩

/-- C4 counterexample: after the exit handler runs on a bridge that had
learned capabilities, the stored capabilities are still present — the claim
that exit clears them is false on the code. -/
theorem child_exit_keeps_capabilities :
    (Compliant.onExit cBridge1).mcpCapabilities = some sampleCaps ∧
    (Compliant.onExit cBridge1).mcpCapabilities ≠ none ∧
    (Compliant.onExit cBridge1).pendingRequests = [(2, 7)] := by
  refine ⟨rfl, ?_, rfl⟩
  intro h
  cases h

/-- C5 counterexample: in the compliant variant a write attempted with no
child (or an unwritable stdin) is logged and dropped — `sendToMCP` returns
normally instead of failing — and the caller of a proxied request stays
pending, with no error surfaced to it. -/
theorem write_without_child_dropped_compliant :
    Compliant.sendToMCP Compliant.initBridge "x" = SendResult.droppedLogged ∧
    Compliant.sendToMCP
        { Compliant.initBridge with mcpProcess := some { stdinWritable := false } }
        "x" = SendResult.droppedLogged ∧
    (Compliant.proxyToMCP Compliant.initBridge 7).1.pendingRequests = [(1, 7)] :=
  ⟨rfl, rfl, rfl⟩

/-- C5 (amended): only the simple variant throws
`MCP process not available` on a write with no live writable child; the
throw escapes the proxy call and its handler renders it as HTTP 500 with a
JSON-RPC −32603 envelope for that caller.  The compliant variant's
`sendToMCP` logs and silently drops the write instead. -/
theorem unavailable_child_write_surfacing
    (bs : Simple.Bridge) (req : PostMsg) (c : Nat) (m : String)
    (h : bs.mcpProcess = none) :
    Simple.sendToMCP bs m = Except.error "MCP process not available" ∧
    (bs.isInitialized = true →
       (Simple.proxyToMCP bs c m).2 = Except.error "MCP process not available") ∧
    (∀ e : String, Simple.renderMCPReply req (Except.error e) =
       Reply.rpcErr 500 JVal.vNull (-32603) e) ∧
    (∀ b : Compliant.Bridge, b.mcpProcess = none →
       Compliant.sendToMCP b m = SendResult.droppedLogged) ∧
    (∀ bs2 : Simple.Bridge, bs2.mcpProcess = some { stdinWritable := false } →
       Simple.sendToMCP bs2 m = Except.error "MCP process not available") := by
  have hsend : Simple.sendToMCP bs m = Except.error "MCP process not available" := by
    rw [Simple.sendToMCP, h]
  refine ⟨hsend, ?_, fun e => rfl, ?_, ?_⟩
  · intro hinit
    have hsend2 : Simple.sendToMCP (Simple.allocPending bs c) m =
        Except.error "MCP process not available" := by
      rw [Simple.sendToMCP]
      show (match (Simple.allocPending bs c).mcpProcess with
            | none => Except.error "MCP process not available"
            | some p => if p.stdinWritable then _ else _) = _
      have : (Simple.allocPending bs c).mcpProcess = none := h
      rw [this]
    simp [Simple.proxyToMCP, hinit, hsend2]
  · intro b hb
    rw [Compliant.sendToMCP, hb]
  · intro bs2 hb2
    rw [Simple.sendToMCP, hb2]
    rfl

/-- C5 witness: an initialized simple bridge whose child has gone away
throws on the write, and the handler renders the rejection as 500/−32603. -/
theorem unavailable_child_write_surfacing_witness :
    Simple.sendToMCP { Simple.initBridge with isInitialized := true } "q" =
      Except.error "MCP process not available" ∧
    (Simple.proxyToMCP { Simple.initBridge with isInitialized := true } 3 "q").2 =
      Except.error "MCP process not available" ∧
    Simple.renderMCPReply
        { id := JVal.vNum 1, method := JVal.vStr "x", params := JVal.vNull }
        (Except.error "MCP process not available") =
      Reply.rpcErr 500 JVal.vNull (-32603) "MCP process not available" := by
  have h := unavailable_child_write_surfacing
      { Simple.initBridge with isInitialized := true }
      { id := JVal.vNum 1, method := JVal.vStr "x", params := JVal.vNull } 3 "q" rfl
  exact ⟨h.1, h.2.1 rfl, h.2.2.1 _⟩

/-- C6 counterexample: the simple variant routes `GET /sse` to `handleSSE`,
which answers 200 and opens the stream without inspecting the Accept
header — with `Accept: application/json` the status is 200, not 400. -/
theorem sse_get_ignores_accept :
    Simple.dispatch "/sse" = Simple.Route.sse ∧
    (Simple.handleSSE Simple.initBridge (some "application/json")).1 =
      Reply.stream 200 ∧
    Reply.statusOf (Simple.handleSSE Simple.initBridge (some "application/json")).1
      = 200 :=
  ⟨rfl, rfl, rfl⟩

/-- C6 (amended): the 400-on-missing-`text/event-stream` check guards the
compliant variant's streaming `GET /mcp`, which then registers no
connection and writes no frame; the compliant variant does not route `/sse`
at all (404, no handler runs); the simple variant's `GET /sse` answers 200
and opens the stream regardless of the Accept header. -/
theorem streaming_accept_check (b : Compliant.Bridge)
    (accept sessionId : Option String) (cid : String)
    (h : acceptIncludesTES accept = false) :
    Compliant.handleMCPGet b accept sessionId cid =
      (b, Compliant.GetResult.reject
            (Reply.plainErr 400 "Accept header must include text/event-stream")) ∧
    (Compliant.handleMCPGet b accept sessionId cid).1.sseConnections =
      b.sseConnections ∧
    Compliant.dispatch "/sse" = Compliant.Route.notFound ∧
    (∀ (bs : Simple.Bridge) (acc : Option String),
       (Simple.handleSSE bs acc).1 = Reply.stream 200) := by
  have heq : Compliant.handleMCPGet b accept sessionId cid =
      (b, Compliant.GetResult.reject
            (Reply.plainErr 400 "Accept header must include text/event-stream")) := by
    simp [Compliant.handleMCPGet, h]
  exact ⟨heq, by rw [heq], rfl, fun bs acc => rfl⟩

/-- C6 witness: `Accept: application/json` on the compliant streaming GET
yields the 400 rejection with no connection registered, and `/sse` is not a
compliant route. -/
theorem streaming_accept_check_witness :
    Compliant.handleMCPGet Compliant.initBridge (some "application/json") none "c1" =
      (Compliant.initBridge,
       Compliant.GetResult.reject
         (Reply.plainErr 400 "Accept header must include text/event-stream")) ∧
    Compliant.dispatch "/sse" = Compliant.Route.notFound := by
  have h := streaming_accept_check Compliant.initBridge
      (some "application/json") none "c1" (by decide)
  exact ⟨h.1, h.2.2.1⟩

theorem mapHas_mapSet_self {κ ν : Type} [DecidableEq κ]
    (l : List (κ × ν)) (k : κ) (v : ν) : mapHas (mapSet l k v) k = true := by
  cases h : mapHas l k with
  | false =>
    rw [mapSet_fresh l k v h, mapHas_eq_true_iff]
    exact ⟨v, List.mem_append_right _ (List.mem_singleton_self _)⟩
  | true =>
    rw [mapSet, if_pos h, mapHas_eq_true_iff]
    obtain ⟨w, hw⟩ := mapHas_eq_true_iff.mp h
    refine ⟨v, List.mem_map.mpr ⟨(k, w), hw, ?_⟩⟩
    simp

/-- C8: `DELETE /mcp` without a session id answers 400 and changes nothing;
with a supplied id it answers 200 and removes exactly that session when the
id is present (every other session survives) and 404 when it is not — so a
second DELETE of the same id answers 404. -/
theorem delete_session_lifecycle (b : Compliant.Bridge) (sid : String)
    (hsid : (sid == "") = false) :
    Compliant.handleMCPDelete b none = (b, Reply.plainErr 400 "Session ID required") ∧
    (mapHas b.sessions sid = true →
       (Compliant.handleMCPDelete b (some sid)).2 =
         Reply.plainMsg 200 "Session terminated" ∧
       mapHas (Compliant.handleMCPDelete b (some sid)).1.sessions sid = false ∧
       (∀ s, s ≠ sid →
          mapHas (Compliant.handleMCPDelete b (some sid)).1.sessions s =
            mapHas b.sessions s) ∧
       (Compliant.handleMCPDelete
           (Compliant.handleMCPDelete b (some sid)).1 (some sid)).2 =
         Reply.plainErr 404 "Session not found") ∧
    (mapHas b.sessions sid = false →
       Compliant.handleMCPDelete b (some sid) =
         (b, Reply.plainErr 404 "Session not found")) := by
  refine ⟨rfl, ?_, ?_⟩
  · intro hmem
    have heq : Compliant.handleMCPDelete b (some sid) =
        ({ b with sessions := mapDelete b.sessions sid },
         Reply.plainMsg 200 "Session terminated") := by
      simp [Compliant.handleMCPDelete, hsid, hmem]
    have hgone : mapHas (mapDelete b.sessions sid) sid = false :=
      mapHas_mapDelete_self _ _
    refine ⟨by rw [heq], by rw [heq]; exact hgone, ?_, ?_⟩
    · intro s hs
      rw [heq]
      exact mapHas_mapDelete_ne _ _ _ hs
    · rw [heq]
      simp [Compliant.handleMCPDelete, hsid, hgone]
  · intro habs
    simp [Compliant.handleMCPDelete, hsid, habs]

/-- C8 witness: deleting the one live session succeeds with 200, leaves no
such session behind, and a second identical DELETE answers 404; a DELETE
with no session id answers 400. -/
theorem delete_session_lifecycle_witness :
    Compliant.handleMCPDelete cBridge1 none =
      (cBridge1, Reply.plainErr 400 "Session ID required") ∧
    (Compliant.handleMCPDelete cBridge1 (some "sess-1")).2 =
      Reply.plainMsg 200 "Session terminated" ∧
    (Compliant.handleMCPDelete
        (Compliant.handleMCPDelete cBridge1 (some "sess-1")).1 (some "sess-1")).2 =
      Reply.plainErr 404 "Session not found" := by
  have h := delete_session_lifecycle cBridge1 "sess-1" (by decide)
  have h2 := h.2.1 (by decide)
  exact ⟨h.1, h2.1, h2.2.2.2⟩

/-- C9 counterexample: a POST body with method `initialize` and id 0 is not
handled as a notification: it takes the initialize path, performs a child
round trip, and answers 200 with a session header — not 202 with an empty
body. -/
theorem falsy_id_initialize_still_roundtrips :
    (Compliant.handleMCPPost Compliant.initBridge
        (some "application/json, text/event-stream") none
        (some { id := JVal.vNum 0, method := JVal.vStr "initialize",
                params := JVal.vObj [] })
        (Except.ok (JVal.vObj [])) "s-1").2.1 =
      Reply.rpcWithSession 200 "s-1" (JVal.vNum 0) (JVal.vObj []) ∧
    (Compliant.handleMCPPost Compliant.initBridge
        (some "application/json, text/event-stream") none
        (some { id := JVal.vNum 0, method := JVal.vStr "initialize",
                params := JVal.vObj [] })
        (Except.ok (JVal.vObj [])) "s-1").2.2 = ChildAction.roundTrip :=
  ⟨rfl, rfl⟩

/-- C9 (amended): in the compliant variant, a parsed POST body whose `id`
is JSON-falsy (0, null, false, the empty string, or absent) and whose
method is not `initialize`, when any supplied session id is known, is
treated as carrying no id: answered 202 with an empty body, with no round
trip and no pending entry — the message is forwarded fire-and-forget
exactly when its method is truthy; and a child response with a falsy id
never resolves or rejects any pending request. -/
theorem falsy_id_treated_as_notification (b : Compliant.Bridge)
    (accept sessionId : Option String) (msg : PostMsg)
    (proxy : Except String JVal) (ns : String)
    (hacc : validateAcceptHeader accept
      ["application/json", "text/event-stream"] = true)
    (hmeth : msg.method.eqStr "initialize" = false)
    (hsess : Compliant.sessionSuppliedUnknown b sessionId = false)
    (hid : msg.id.truthy = false) :
    Compliant.handleMCPPost b accept sessionId (some msg) proxy ns =
      (b, Reply.accepted,
       if msg.method.truthy then ChildAction.notifyOnly else ChildAction.noSend) ∧
    (JVal.vNum 0).truthy = false ∧ JVal.vNull.truthy = false ∧
    (JVal.vBool false).truthy = false ∧ (JVal.vStr "").truthy = false ∧
    JVal.absent.truthy = false ∧
    (∀ (b2 : Compliant.Bridge) (r : Resp), r.id.truthy = false →
       Compliant.handleMCPResponse b2 r = (b2, none)) := by
  refine ⟨?_, rfl, rfl, rfl, rfl, rfl,
    fun b2 r h => handleMCPResponse_not_truthy b2 r h⟩
  cases hm : msg.method.truthy <;>
    simp [Compliant.handleMCPPost, hacc, hmeth, hsess, hid, hm]

/-- C9 witness: a notification-shaped body with id 0 yields 202 and a
fire-and-forget send; a child response with id 0 settles nothing. -/
theorem falsy_id_treated_as_notification_witness :
    Compliant.handleMCPPost Compliant.initBridge
        (some "application/json, text/event-stream") none
        (some { id := JVal.vNum 0, method := JVal.vStr "notifications/progress",
                params := JVal.vNull })
        (Except.ok JVal.vNull) "s" =
      (Compliant.initBridge, Reply.accepted, ChildAction.notifyOnly) ∧
    Compliant.handleMCPResponse cBridge1
        { id := JVal.vNum 0, error := none, result := JVal.vNull } =
      (cBridge1, none) := by
  have h := falsy_id_treated_as_notification Compliant.initBridge
      (some "application/json, text/event-stream") none
      { id := JVal.vNum 0, method := JVal.vStr "notifications/progress",
        params := JVal.vNull }
      (Except.ok JVal.vNull) "s" (by decide) (by decide) (by decide) (by decide)
  exact ⟨h.1, h.2.2.2.2.2.2 cBridge1 _ (by decide)⟩

/-- C10 counterexample: an initialize POST whose body carries no `params`
member, with an unknown session header and a successful child round trip,
is answered 500 with code −32603 — reading `clientInfo` off the undefined
`params` throws before the session is stored — and no fresh session id is
created or returned, refuting the claim's unconditional
`on success, creates and returns a fresh session id`. -/
theorem initialize_null_params_no_session :
    (Compliant.handleMCPPost cBridge1
        (some "application/json, text/event-stream") (some "bogus")
        (some { id := JVal.vNum 5, method := JVal.vStr "initialize",
                params := JVal.absent })
        (Except.ok (JVal.vObj [])) "new-sess").2.1 =
      Reply.rpcErr 500 (JVal.vNum 5) (-32603)
        (typeErrorMessage JVal.absent "clientInfo") ∧
    (Compliant.handleMCPPost cBridge1
        (some "application/json, text/event-stream") (some "bogus")
        (some { id := JVal.vNum 5, method := JVal.vStr "initialize",
                params := JVal.absent })
        (Except.ok (JVal.vObj [])) "new-sess").1.sessions = cBridge1.sessions ∧
    mapHas (Compliant.handleMCPPost cBridge1
        (some "application/json, text/event-stream") (some "bogus")
        (some { id := JVal.vNum 5, method := JVal.vStr "initialize",
                params := JVal.absent })
        (Except.ok (JVal.vObj [])) "new-sess").1.sessions "new-sess" = false :=
  ⟨rfl, rfl, rfl⟩

/-- C10 (amended): the −32001 unknown-session rejection applies only to
non-initialize messages: an initialize POST is proxied even when the
supplied `Mcp-Session-Id` is unknown and, on success of the round trip,
mints and returns a fresh session id — provided its `params` value is not
null or absent; with a null/absent `params`, reading `clientInfo` while
building the session entry throws inside the `try`, so the handler answers
500 with code −32603 and creates no session.  A non-initialize message
carrying the same unknown session id is rejected 404 with code −32001 and
nothing is sent to the child. -/
theorem initialize_bypasses_session_check (b : Compliant.Bridge)
    (accept : Option String) (sid : String) (msg : PostMsg)
    (proxy : Except String JVal) (ns : String) (v : JVal)
    (hacc : validateAcceptHeader accept
      ["application/json", "text/event-stream"] = true)
    (hinit : msg.method.eqStr "initialize" = true)
    (hsid : (sid == "") = false)
    (hunknown : mapHas b.sessions sid = false)
    (hok : proxy = Except.ok v) :
    (jsGetFieldThrows msg.params = false →
       Compliant.handleMCPPost b accept (some sid) (some msg) proxy ns =
         ({ b with
              sessions := mapSet b.sessions ns (msg.params.getField "clientInfo") },
          Reply.rpcWithSession 200 ns msg.id v, ChildAction.roundTrip) ∧
       mapHas (Compliant.handleMCPPost b accept (some sid) (some msg) proxy ns).1.sessions
         ns = true) ∧
    (jsGetFieldThrows msg.params = true →
       Compliant.handleMCPPost b accept (some sid) (some msg) proxy ns =
         (b, Reply.rpcErr 500 msg.id (-32603) (typeErrorMessage msg.params "clientInfo"),
          ChildAction.roundTrip)) ∧
    (∀ msg2 : PostMsg, msg2.method.eqStr "initialize" = false →
       Compliant.handleMCPPost b accept (some sid) (some msg2) proxy ns =
         (b, Reply.rpcErr 404 msg2.id (-32001) "Session not found",
          ChildAction.noSend)) := by
  subst hok
  have hb : Compliant.handleMCPPost b accept (some sid) (some msg)
      (Except.ok v) ns = Compliant.handleInitializeRequest b msg (Except.ok v) ns := by
    simp [Compliant.handleMCPPost, hacc, hinit]
  refine ⟨?_, ?_, ?_⟩
  · intro hnp
    have heq : Compliant.handleMCPPost b accept (some sid) (some msg)
        (Except.ok v) ns =
        ({ b with
             sessions := mapSet b.sessions ns (msg.params.getField "clientInfo") },
         Reply.rpcWithSession 200 ns msg.id v, ChildAction.roundTrip) := by
      rw [hb]
      simp [Compliant.handleInitializeRequest, hnp]
    refine ⟨heq, ?_⟩
    rw [heq]
    exact mapHas_mapSet_self _ _ _
  · intro hnp
    rw [hb]
    simp [Compliant.handleInitializeRequest, hnp]
  · intro msg2 hmeth2
    have hsess : Compliant.sessionSuppliedUnknown b (some sid) = true := by
      simp [Compliant.sessionSuppliedUnknown, hsid, hunknown]
    simp [Compliant.handleMCPPost, hacc, hmeth2, hsess]

/-- C10 witness: initialize with a bogus session header and an object
`params` still succeeds and returns the fresh session id; a tools/list with
the same bogus header is rejected 404/−32001. -/
theorem initialize_bypasses_session_check_witness :
    Compliant.handleMCPPost cBridge1
        (some "application/json, text/event-stream") (some "bogus")
        (some { id := JVal.vNum 5, method := JVal.vStr "initialize",
                params := JVal.vObj [("clientInfo", JVal.vStr "t")] })
        (Except.ok (JVal.vObj [])) "new-sess" =
      ({ cBridge1 with
           sessions := mapSet cBridge1.sessions "new-sess" (JVal.vStr "t") },
       Reply.rpcWithSession 200 "new-sess" (JVal.vNum 5) (JVal.vObj []),
       ChildAction.roundTrip) ∧
    Compliant.handleMCPPost cBridge1
        (some "application/json, text/event-stream") (some "bogus")
        (some { id := JVal.vNum 6, method := JVal.vStr "tools/list",
                params := JVal.vNull })
        (Except.ok (JVal.vObj [])) "new-sess" =
      (cBridge1, Reply.rpcErr 404 (JVal.vNum 6) (-32001) "Session not found",
       ChildAction.noSend) := by
  have h := initialize_bypasses_session_check cBridge1
      (some "application/json, text/event-stream") "bogus"
      { id := JVal.vNum 5, method := JVal.vStr "initialize",
        params := JVal.vObj [("clientInfo", JVal.vStr "t")] }
      (Except.ok (JVal.vObj [])) "new-sess" (JVal.vObj [])
      (by decide) (by decide) (by decide) (by decide) rfl
  refine ⟨?_, h.2.2 _ (by decide)⟩
  have h1 := (h.1 (by decide)).1
  simpa using h1
